import Mathlib

/-!
# Listings synchronization engine: shallow embedding

A shallow embedding of the synchronization engine of the listings
application (`server.js` and `script.js`): the server's authoritative
replica and its socket event handlers, the client's local replica, offline
queue and connect-time drain, and the presence counter.

Replicas are JavaScript arrays of listing objects, embedded as `List
Listing`.  The sync engine only ever inspects a listing's `id` field; the
rest of the object (title, description, images, pricing, ...) flows
through opaquely and is embedded as a single `rest` field.  A JavaScript
value that may be `null`/`undefined` where an object is expected is
embedded as an `Option`.  Handlers that can throw a `TypeError` (property
access on `null`) return an `Option` result, `none` meaning the handler
threw and produced neither a state change nor an emission.
-/

set_option autoImplicit false

namespace ListingsSync

/-- A listing object as seen by the sync engine.  `id` is `none` when the
object has no `id` field (or it is `undefined`); `rest` stands for all the
payload fields the engine never inspects. -/
structure Listing where
  id : Option String
  rest : Nat
deriving DecidableEq

/-- JavaScript truthiness of the `id` field: `undefined`/missing and the
empty string are falsy, every other string is truthy. -/
def truthyId : Option String → Bool
  | none => false
  | some s => s != ""

/-! ## Server: authoritative replica operations (`server.js`)

`saveListing` (server.js:123-149): in local mode (`useCloudBackend`
false) it upserts the in-memory array and then calls `saveListingsLocal`,
which swallows any file-write error, so the in-memory update always
happens.  In cloud mode it first awaits the Firebase write; if that write
throws, the `catch` skips the in-memory cache update, so the replica is
left unchanged.  The `writeOk` flag says whether the backend write
succeeds. -/

/-- Embedding of `listings[idx] = listing` at `idx = listings.findIndex(l => l.id ===
listing.id)`: replace the first entry whose `id` equals the new listing's
`id`. -/
def replaceFirst (l : Listing) : List Listing → List Listing
  | [] => []
  | x :: xs => if x.id = l.id then l :: xs else x :: replaceFirst l xs

/-- Insert-or-replace by `id`: if `findIndex` misses (`idx === -1`) the
listing is `unshift`ed onto the front, otherwise the found entry is
overwritten in place. -/
def upsert (listings : List Listing) (l : Listing) : List Listing :=
  if ∃ x ∈ listings, x.id = l.id then replaceFirst l listings else l :: listings

/-- Embedding of `saveListing` (server.js:123-149), in-memory effect.  `cloud` is
`useCloudBackend`; `writeOk` is whether the backend write succeeds. -/
def saveListing (cloud writeOk : Bool) (listings : List Listing) (l : Listing) :
    List Listing :=
  if cloud = false then upsert listings l
  else if writeOk = true then upsert listings l
  else listings

/-- Embedding of `listings.filter(l => l.id !== listingId)`: drop every entry with the
given `id` (used both by the server's `deleteListing` and by the client's
`deleted` apply). -/
def removeId (listings : List Listing) (lid : Option String) : List Listing :=
  listings.filter (fun x => decide (x.id ≠ lid))

/-- Embedding of `deleteListing` (server.js:151-164), in-memory effect.  In local mode
the filter runs and the file-write error is swallowed; in cloud mode a
failed Firebase delete skips the filter. -/
def deleteListing (cloud writeOk : Bool) (listings : List Listing) (lid : Option String) :
    List Listing :=
  if cloud = false then removeId listings lid
  else if writeOk = true then removeId listings lid
  else listings

/-- The normalized `update-listings {action, listing|listingId}` broadcast
payload (server.js:292-320, consumed at script.js:102-126). -/
inductive UpdateMsg where
  | added (listing : Option Listing)
  | updated (listing : Option Listing)
  | deleted (listingId : Option String)
deriving DecidableEq

/-- Embedding of `socket.on('listing-added')` (server.js:285-297).  The handler first
evaluates `listing.title` for the log line, which throws a `TypeError`
when the payload is `null`; then it saves only when `listing && listing.id`
is truthy, and finally broadcasts `update-listings {action:'added'}` with
the original payload to all channels. -/
def handleListingAdded (cloud writeOk : Bool) (listings : List Listing)
    (listing : Option Listing) : Option (List Listing × UpdateMsg) :=
  match listing with
  | none => none
  | some l =>
    let listings' :=
      if truthyId l.id = true then saveListing cloud writeOk listings l else listings
    some (listings', UpdateMsg.added (some l))

/-- Embedding of `socket.on('listing-updated')` (server.js:312-321).  The log line
evaluates `listing.id`, throwing on a `null` payload; otherwise
`saveListing` runs unconditionally and the `updated` broadcast follows. -/
def handleListingUpdated (cloud writeOk : Bool) (listings : List Listing)
    (listing : Option Listing) : Option (List Listing × UpdateMsg) :=
  match listing with
  | none => none
  | some l => some (saveListing cloud writeOk listings l, UpdateMsg.updated (some l))

/-- Embedding of `socket.on('listing-deleted')` (server.js:300-309): delete then
broadcast; never throws. -/
def handleListingDeleted (cloud writeOk : Bool) (listings : List Listing)
    (lid : Option String) : List Listing × UpdateMsg :=
  (deleteListing cloud writeOk listings lid, UpdateMsg.deleted lid)

/-- Target of a server-side `emit`: `io.emit` reaches every channel,
`socket.emit` only the one client. -/
inductive EmitTarget where
  | allClients
  | oneClient (sid : String)
deriving DecidableEq

/-- A server-side socket emission. -/
inductive ServerEmit where
  | usersCount (target : EmitTarget) (n : Nat)
  | syncAll (target : EmitTarget) (replica : List Listing)
  | update (target : EmitTarget) (msg : UpdateMsg)
deriving DecidableEq

/-- Embedding of `socket.on('sync-listings')` (server.js:324-340).  When the candidate
array is non-empty, the ids already present are snapshotted once, every
candidate entry that is non-null, has a truthy `id` and is not yet known
is saved in order, and finally the authoritative list is broadcast to all
channels with `io.emit('sync-all-listings', listings)`. -/
def handleSyncListings (cloud writeOk : Bool) (listings : List Listing)
    (clientListings : List (Option Listing)) : List Listing × ServerEmit :=
  let listings' :=
    if clientListings = [] then listings
    else
      let existingIds := listings.map (·.id)
      let toAdd := clientListings.filterMap (fun c =>
        match c with
        | none => none
        | some l => if truthyId l.id = true ∧ l.id ∉ existingIds then some l else none)
      toAdd.foldl (saveListing cloud writeOk) listings
  (listings', ServerEmit.syncAll EmitTarget.allClients listings')

/-! ## Server: connection bookkeeping (`server.js:272-346`)

`clients` is a JavaScript `Set` of socket ids: `add` appends when absent,
`delete` removes the element.  We embed it as a `List String` kept
duplicate-free by `addClient`. -/

/-- Embedding of `clients.add(socket.id)`. -/
def addClient (clients : List String) (sid : String) : List String :=
  if sid ∈ clients then clients else clients ++ [sid]

/-- Embedding of `clients.delete(socket.id)`. -/
def removeClient (clients : List String) (sid : String) : List String :=
  clients.filter (fun x => decide (x ≠ sid))

/-- Embedding of the `io.on('connection')` body before any message arrives
(server.js:274-282): register the socket id, broadcast `users-count` with
the new size to everyone, and send `sync-all-listings` with the full
authoritative replica to the new client alone. -/
def onConnection (clients : List String) (listings : List Listing) (sid : String) :
    List String × List ServerEmit :=
  let clients' := addClient clients sid
  (clients',
    [ServerEmit.usersCount EmitTarget.allClients clients'.length,
     ServerEmit.syncAll (EmitTarget.oneClient sid) listings])

/-- Embedding of `socket.on('disconnect')` (server.js:342-346). -/
def onDisconnect (clients : List String) (sid : String) :
    List String × List ServerEmit :=
  let clients' := removeClient clients sid
  (clients', [ServerEmit.usersCount EmitTarget.allClients clients'.length])

/-! ## Client: applying `update-listings` broadcasts (`script.js:102-126`) -/

/-- The `added` branch: `if (!listings.find(l => l.id === data.listing.id))
listings.unshift(data.listing)`. -/
def applyAdded (replica : List Listing) (l : Listing) : List Listing :=
  if ∃ x ∈ replica, x.id = l.id then replica else l :: replica

/-- The `updated` branch: replace in place when `findIndex` hits, otherwise
ignore. -/
def applyUpdated (replica : List Listing) (l : Listing) : List Listing :=
  if ∃ x ∈ replica, x.id = l.id then replaceFirst l replica else replica

/-- The client's `update-listings` handler (script.js:102-126).  The
`added` and `updated` branches dereference `data.listing.id`, which throws
a `TypeError` when the carried listing is `null`; `deleted` only reads
`data.listingId` and never throws. -/
def applyUpdate (replica : List Listing) (m : UpdateMsg) :
    Option (List Listing) :=
  match m with
  | UpdateMsg.added none => none
  | UpdateMsg.added (some l) => some (applyAdded replica l)
  | UpdateMsg.updated none => none
  | UpdateMsg.updated (some l) => some (applyUpdated replica l)
  | UpdateMsg.deleted lid => some (removeId replica lid)

/-- Invariant that at most one listing per id exists: the ids of a replica are pairwise
distinct. -/
def distinctIds (replica : List Listing) : Prop :=
  (replica.map (·.id)).Nodup

instance (replica : List Listing) : Decidable (distinctIds replica) :=
  inferInstanceAs (Decidable ((replica.map (fun x : Listing => x.id)).Nodup))

/-! ## Client: offline queue (`script.js:4-62`)

`updateQueue` is an in-memory array mirrored to `localStorage` by
`saveUpdateQueue` after every structural change; `loadUpdateQueue`
restores it on startup. -/

/-- The three mutation event names `queueUpdate` is ever called with
(script.js:363, 545, 570). -/
inductive QAction where
  | added
  | updated
  | deleted
deriving DecidableEq

/-- Payload `data` stored with a queued update: the full listing payload for
add/update, the bare id for delete.  The drain re-emits it untouched. -/
inductive QData where
  | payload (listing : Option Listing)
  | lid (listingId : Option String)
deriving DecidableEq

/-- A queued mutation intent (script.js:21-31): `qid` embeds the
`Date.now() + Math.random()` identifier, `timestamp` is dropped as it is
never read. -/
structure QueuedUpdate where
  qid : Nat
  action : QAction
  data : QData
deriving DecidableEq

/-- The client's queue state: the in-memory `updateQueue` array and the
`localStorage` copy written by `saveUpdateQueue`. -/
structure ClientQueueState where
  updateQueue : List QueuedUpdate
  stored : List QueuedUpdate
deriving DecidableEq

/-- Embedding of `queueUpdate` (script.js:21-31): push the intent and persist the whole
queue before returning. -/
def queueUpdate (qid : Nat) (a : QAction) (d : QData) (st : ClientQueueState) :
    ClientQueueState :=
  let q := st.updateQueue ++ [⟨qid, a, d⟩]
  ⟨q, q⟩

/-- Embedding of `loadUpdateQueue` (script.js:10-13): the in-memory queue is re-read
from `localStorage`.  A crash loses only the in-memory array, so a
crash-and-restart is exactly this. -/
def loadUpdateQueue (st : ClientQueueState) : ClientQueueState :=
  ⟨st.stored, st.stored⟩

/-- A client-side socket emission. -/
inductive ClientEmit where
  | mutation (action : QAction) (data : QData)
  | syncListings (replica : List Listing)
deriving DecidableEq

/-- Embedding of `socket.emit(update.action, update.data)` for a queued intent. -/
def emitOf (u : QueuedUpdate) : ClientEmit :=
  ClientEmit.mutation u.action u.data

/-- The drain loop of `processUpdateQueue` (script.js:40-57): iterate over
the snapshot `toProcess`, emit each intent, then splice it out of the live
queue at `updateQueue.indexOf(update)` (remove the first occurrence when
present).  First argument is the remaining snapshot, second the live
queue. -/
def drainLoop : List QueuedUpdate → List QueuedUpdate → List ClientEmit × List QueuedUpdate
  | [], q => ([], q)
  | u :: rest, q =>
    let out := drainLoop rest (q.erase u)
    (emitOf u :: out.1, out.2)

/-- Embedding of `processUpdateQueue` (script.js:34-62): a no-op unless connected,
non-empty and not already syncing; otherwise drain a snapshot of the
queue and persist the resulting queue with `saveUpdateQueue`. -/
def processUpdateQueue (isConnected isSyncing : Bool) (st : ClientQueueState) :
    List ClientEmit × ClientQueueState :=
  if isConnected = false ∨ st.updateQueue = [] ∨ isSyncing = true then ([], st)
  else
    let out := drainLoop st.updateQueue st.updateQueue
    (out.1, ⟨out.2, out.2⟩)

/-- Embedding of `socket.on('connect')` (script.js:77-87): set connected, emit
`sync-listings` with the entire local replica, then drain the offline
queue. -/
def onConnect (replica : List Listing) (isSyncing : Bool) (st : ClientQueueState) :
    List ClientEmit × ClientQueueState :=
  let out := processUpdateQueue true isSyncing st
  (ClientEmit.syncListings replica :: out.1, out.2)

/-! ## Presence over a whole trace -/

/-- A connection-lifecycle event on some channel. -/
inductive ChanEvent where
  | connect (sid : String)
  | disconnect (sid : String)
deriving DecidableEq

/-- Effect of one lifecycle event on the `clients` set. -/
def stepPresence (clients : List String) : ChanEvent → List String
  | ChanEvent.connect sid => addClient clients sid
  | ChanEvent.disconnect sid => removeClient clients sid

/-- Run a trace of lifecycle events, recording the `users-count` value
broadcast after each one (`io.emit('users-count', clients.size)` at
server.js:279 and server.js:345). -/
def presenceRun : List String → List ChanEvent → List String × List Nat
  | clients, [] => (clients, [])
  | clients, e :: rest =>
    let clients' := stepPresence clients e
    let out := presenceRun clients' rest
    (out.1, clients'.length :: out.2)

/-- A well-formed trace: socket ids of connects are fresh and every
disconnect is for a currently open channel (socket.io fires exactly one
`disconnect` per established connection, and socket ids are unique). -/
def wfTrace : List String → List ChanEvent → Bool
  | _, [] => true
  | clients, ChanEvent.connect sid :: rest =>
    decide (sid ∉ clients) && wfTrace (addClient clients sid) rest
  | clients, ChanEvent.disconnect sid :: rest =>
    decide (sid ∈ clients) && wfTrace (removeClient clients sid) rest

/-- Number of connect events in a trace. -/
def countConnects (evs : List ChanEvent) : Nat :=
  evs.countP (fun e => match e with | ChanEvent.connect _ => true | _ => false)

/-- Number of disconnect events in a trace. -/
def countDisconnects (evs : List ChanEvent) : Nat :=
  evs.countP (fun e => match e with | ChanEvent.disconnect _ => true | _ => false)

/-! ## Helper lemmas about the replica operations -/

/-- Replacing the entry that shares the new listing's `id` never changes
the sequence of ids of the replica. -/
theorem replaceFirst_map_id (l : Listing) (R : List Listing) :
    (replaceFirst l R).map (·.id) = R.map (·.id) := by
  induction R with
  | nil => rfl
  | cons x xs ih =>
    by_cases h : x.id = l.id
    · simp [replaceFirst, h]
    · simp [replaceFirst, h, ih]

/-- When the `id` is not yet present, `upsert` is an `unshift`. -/
theorem upsert_of_not_mem {R : List Listing} {l : Listing}
    (h : l.id ∉ R.map (·.id)) : upsert R l = l :: R := by
  rw [upsert, if_neg]
  rintro ⟨x, hx, hid⟩
  exact h (List.mem_map.mpr ⟨x, hx, hid⟩)

/-- Lemma that `upsert` keeps the ids of a replica pairwise distinct. -/
theorem distinctIds_upsert {R : List Listing} (l : Listing)
    (h : distinctIds R) : distinctIds (upsert R l) := by
  rw [upsert]
  split_ifs with hex
  · unfold distinctIds
    rw [replaceFirst_map_id]
    exact h
  · unfold distinctIds
    rw [List.map_cons]
    refine List.nodup_cons.mpr ⟨?_, h⟩
    intro hmem
    rcases List.mem_map.mp hmem with ⟨x, hx, hid⟩
    exact hex ⟨x, hx, hid⟩

/-- Lemma that `removeId` keeps the ids of a replica pairwise distinct. -/
theorem distinctIds_removeId {R : List Listing} (lid : Option String)
    (h : distinctIds R) : distinctIds (removeId R lid) :=
  List.Sublist.nodup ((List.filter_sublist R).map (·.id)) h

/-- When the backend write succeeds, or the server runs on local storage,
`saveListing` is exactly the in-memory upsert. -/
theorem saveListing_eq_upsert {cloud writeOk : Bool}
    (h : cloud = false ∨ writeOk = true) (R : List Listing) (l : Listing) :
    saveListing cloud writeOk R l = upsert R l := by
  rcases h with h | h <;> simp [saveListing, h]

/-- Lemma that `saveListing` keeps the ids of a replica pairwise distinct, whatever
the backend mode and write outcome. -/
theorem distinctIds_saveListing (cloud writeOk : Bool) {R : List Listing} (l : Listing)
    (h : distinctIds R) : distinctIds (saveListing cloud writeOk R l) := by
  unfold saveListing
  split_ifs <;> first | exact distinctIds_upsert l h | exact h

/-- Lemma that `deleteListing` keeps the ids of a replica pairwise distinct. -/
theorem distinctIds_deleteListing (cloud writeOk : Bool) {R : List Listing}
    (lid : Option String) (h : distinctIds R) :
    distinctIds (deleteListing cloud writeOk R lid) := by
  unfold deleteListing
  split_ifs <;> first | exact distinctIds_removeId lid h | exact h

/-- Saving a batch of listings keeps the ids pairwise distinct. -/
theorem distinctIds_foldl_saveListing (cloud writeOk : Bool) (toAdd : List Listing) :
    ∀ R : List Listing, distinctIds R →
      distinctIds (toAdd.foldl (saveListing cloud writeOk) R) := by
  induction toAdd with
  | nil => exact fun R h => h
  | cons c cs ih => exact fun R h => ih _ (distinctIds_saveListing _ _ _ h)

/-- Lemma that `applyAdded` keeps the ids of a replica pairwise distinct. -/
theorem distinctIds_applyAdded {R : List Listing} (l : Listing)
    (h : distinctIds R) : distinctIds (applyAdded R l) := by
  rw [applyAdded]
  split_ifs with hex
  · exact h
  · unfold distinctIds
    rw [List.map_cons]
    refine List.nodup_cons.mpr ⟨?_, h⟩
    intro hmem
    rcases List.mem_map.mp hmem with ⟨x, hx, hid⟩
    exact hex ⟨x, hx, hid⟩

/-- Lemma that `applyUpdated` keeps the ids of a replica pairwise distinct. -/
theorem distinctIds_applyUpdated {R : List Listing} (l : Listing)
    (h : distinctIds R) : distinctIds (applyUpdated R l) := by
  rw [applyUpdated]
  split_ifs with hex
  · unfold distinctIds
    rw [replaceFirst_map_id]
    exact h
  · exact h

/-- Applying an `added` broadcast a second time is a no-op: the first
application put the `id` into the replica, so the membership test now
hits. -/
theorem applyAdded_applyAdded (R : List Listing) (l : Listing) :
    applyAdded (applyAdded R l) l = applyAdded R l := by
  by_cases hex : ∃ x ∈ R, x.id = l.id
  · have h1 : applyAdded R l = R := by rw [applyAdded, if_pos hex]
    rw [h1, applyAdded, if_pos hex]
  · have h1 : applyAdded R l = l :: R := by rw [applyAdded, if_neg hex]
    rw [h1, applyAdded, if_pos ⟨l, List.mem_cons_self l R, rfl⟩]

/-- Folding saved batches of fresh, pairwise-distinct listings onto a
replica `unshift`s them one by one: the result is the batch reversed in
front of the untouched replica. -/
theorem foldl_upsert_fresh (toAdd : List Listing) :
    ∀ A : List Listing, (∀ c ∈ toAdd, c.id ∉ A.map (·.id)) →
      (toAdd.map (·.id)).Nodup →
      toAdd.foldl upsert A = toAdd.reverse ++ A := by
  induction toAdd with
  | nil => intro A _ _; rfl
  | cons c cs ih =>
    intro A hfresh hnodup
    have h1 : upsert A c = c :: A := upsert_of_not_mem (hfresh c (List.mem_cons_self c cs))
    rw [List.foldl_cons, h1, ih (c :: A) ?_ (List.nodup_cons.mp hnodup).2]
    · simp
    · intro d hd hmem
      rcases List.mem_cons.mp hmem with h | h
      · exact (List.nodup_cons.mp hnodup).1 (h ▸ List.mem_map.mpr ⟨d, hd, rfl⟩)
      · exact hfresh d (List.mem_cons_of_mem _ hd) h

/-- On a candidate array whose entries are all non-null with truthy ids,
the `sync-listings` selection (`l && l.id && !existingIds.has(l.id)`) is
just the filter for unknown ids. -/
theorem candidates_filter (ids : List (Option String)) (C : List Listing) :
    (∀ l ∈ C, truthyId l.id = true) →
    ((C.map some).filterMap (fun c =>
        match c with
        | none => none
        | some l => if truthyId l.id = true ∧ l.id ∉ ids then some l else none))
      = C.filter (fun c => decide (c.id ∉ ids)) := by
  induction C with
  | nil => intro _; rfl
  | cons c cs ih =>
    intro htruthy
    have hc : truthyId c.id = true := htruthy c (List.mem_cons_self c cs)
    have ihr := ih (fun l hl => htruthy l (List.mem_cons_of_mem _ hl))
    by_cases h : c.id ∉ ids
    · simp only [List.map_cons, List.filterMap_cons, List.filter_cons, ihr]
      rw [if_pos ⟨hc, h⟩]
      simp [h]
    · simp only [List.map_cons, List.filterMap_cons, List.filter_cons, ihr]
      rw [if_neg (fun hand => h hand.2)]
      simp [h]

/-- The authoritative replica produced by the `sync-listings` handler,
with the `let`-bound intermediate values inlined. -/
theorem handleSyncListings_fst (cloud writeOk : Bool) (listings : List Listing)
    (clientListings : List (Option Listing)) :
    (handleSyncListings cloud writeOk listings clientListings).1
      = if clientListings = [] then listings
        else (clientListings.filterMap (fun c =>
            match c with
            | none => none
            | some l =>
              if truthyId l.id = true ∧ l.id ∉ listings.map (·.id) then some l
              else none)).foldl (saveListing cloud writeOk) listings :=
  rfl

/-- Lemma that `foldl (saveListing cloud writeOk)` agrees with `foldl upsert` when
the backend writes succeed (or the server is in local mode). -/
theorem foldl_saveListing_eq {cloud writeOk : Bool}
    (h : cloud = false ∨ writeOk = true) (toAdd : List Listing) :
    ∀ A : List Listing,
      toAdd.foldl (saveListing cloud writeOk) A = toAdd.foldl upsert A := by
  induction toAdd with
  | nil => intro A; rfl
  | cons c cs ih => intro A; rw [List.foldl_cons, List.foldl_cons,
      saveListing_eq_upsert h, ih]

/-! ## Helper lemmas about the offline queue -/

/-- Every snapshot entry is emitted, in order, exactly once. -/
theorem drainLoop_emits (toProcess : List QueuedUpdate) :
    ∀ q, (drainLoop toProcess q).1 = toProcess.map emitOf := by
  induction toProcess with
  | nil => intro q; rfl
  | cons u rest ih => intro q; simp [drainLoop, ih]

/-- Draining the full queue against itself empties it: each iteration
removes the intent it just sent. -/
theorem drainLoop_self_queue : ∀ q : List QueuedUpdate, (drainLoop q q).2 = [] := by
  intro q
  induction q with
  | nil => rfl
  | cons u rest ih =>
    show (drainLoop rest ((u :: rest).erase u)).2 = []
    rw [List.erase_cons_head]
    exact ih

/-- When the guard trips (offline, empty queue, or reentrant call),
`processUpdateQueue` returns without emitting or changing anything. -/
theorem processUpdateQueue_skip (isConnected isSyncing : Bool) (st : ClientQueueState)
    (h : isConnected = false ∨ st.updateQueue = [] ∨ isSyncing = true) :
    processUpdateQueue isConnected isSyncing st = ([], st) := by
  rw [processUpdateQueue, if_pos h]

/-- A connected, non-reentrant drain of a non-empty queue sends one
mutation event per queued intent, in queue order, and leaves behind an
empty queue, both in memory and in durable storage. -/
theorem processUpdateQueue_drain (st : ClientQueueState) (hq : st.updateQueue ≠ []) :
    processUpdateQueue true false st = (st.updateQueue.map emitOf, ⟨[], []⟩) := by
  rw [processUpdateQueue, if_neg (by simp [hq])]
  rw [Prod.mk.injEq]
  exact ⟨drainLoop_emits _ _, by rw [drainLoop_self_queue]⟩

/-- An intent record built from a `(qid, action, data)` triple. -/
def mkUpdate (t : Nat × QAction × QData) : QueuedUpdate :=
  ⟨t.1, t.2.1, t.2.2⟩

/-- Enqueue a list of intents, starting from an empty queue and empty
durable storage (a fresh client while disconnected). -/
def enqueueAll (intents : List (Nat × QAction × QData)) : ClientQueueState :=
  intents.foldl (fun st t => queueUpdate t.1 t.2.1 t.2.2 st) ⟨[], []⟩

/-- After each `enqueue`, both the in-memory queue and the durable copy
hold exactly the enqueued intents, in order. -/
theorem enqueueAll_eq (intents : List (Nat × QAction × QData)) :
    enqueueAll intents = ⟨intents.map mkUpdate, intents.map mkUpdate⟩ := by
  have aux : ∀ (l : List (Nat × QAction × QData)) (q : List QueuedUpdate),
      l.foldl (fun st t => queueUpdate t.1 t.2.1 t.2.2 st) ⟨q, q⟩
        = ⟨q ++ l.map mkUpdate, q ++ l.map mkUpdate⟩ := by
    intro l
    induction l with
    | nil => intro q; simp
    | cons t ts ih =>
      intro q
      rw [List.foldl_cons]
      show ts.foldl (fun st t => queueUpdate t.1 t.2.1 t.2.2 st)
          ⟨q ++ [mkUpdate t], q ++ [mkUpdate t]⟩ = _
      rw [ih (q ++ [mkUpdate t])]
      simp
  simpa using aux intents []

/-! ## Helper lemmas about presence counting -/

/-- Lemma that `Set.add` keeps the client list duplicate-free. -/
theorem nodup_addClient {clients : List String} (sid : String)
    (h : clients.Nodup) : (addClient clients sid).Nodup := by
  unfold addClient
  split_ifs with hmem
  · exact h
  · refine List.Nodup.append h (List.nodup_singleton sid) ?_
    intro a ha hb
    rw [List.mem_singleton] at hb
    exact hmem (hb ▸ ha)

/-- Lemma that `Set.delete` keeps the client list duplicate-free. -/
theorem nodup_removeClient {clients : List String} (sid : String)
    (h : clients.Nodup) : (removeClient clients sid).Nodup :=
  List.Sublist.nodup (List.filter_sublist clients) h

/-- Adding a fresh socket id grows the set by one. -/
theorem length_addClient_of_not_mem {clients : List String} {sid : String}
    (h : sid ∉ clients) : (addClient clients sid).length = clients.length + 1 := by
  simp [addClient, h]

/-- Removing a present socket id from a duplicate-free set shrinks it by
one. -/
theorem length_removeClient_of_mem : ∀ {clients : List String} {sid : String},
    clients.Nodup → sid ∈ clients →
    (removeClient clients sid).length + 1 = clients.length := by
  intro clients
  induction clients with
  | nil => intro sid _ h; cases h
  | cons a l ih =>
    intro sid hnd hmem
    rcases List.nodup_cons.mp hnd with ⟨hal, hl⟩
    rw [removeClient, List.filter_cons]
    by_cases hsa : a = sid
    · subst hsa
      rw [if_neg (by simp)]
      have hfl : List.filter (fun x => decide (x ≠ a)) l = l := by
        refine List.filter_eq_self.mpr ?_
        intro b hb
        simp only [ne_eq, decide_eq_true_eq]
        intro hba
        exact hal (hba ▸ hb)
      rw [hfl, List.length_cons]
    · have hmem2 : sid ∈ l := by
        rcases List.mem_cons.mp hmem with h | h
        · exact absurd h.symm hsa
        · exact h
      have := ih hl hmem2
      rw [removeClient] at this
      rw [if_pos (decide_eq_true hsa)]
      simp only [List.length_cons]
      omega

/-- Unfolding one step of `presenceRun`. -/
theorem presenceRun_cons (clients : List String) (e : ChanEvent) (rest : List ChanEvent) :
    presenceRun clients (e :: rest)
      = ((presenceRun (stepPresence clients e) rest).1,
         (stepPresence clients e).length :: (presenceRun (stepPresence clients e) rest).2) :=
  rfl

/-- Counting connects, one step at a time. -/
theorem countConnects_cons (e : ChanEvent) (evs : List ChanEvent) :
    countConnects (e :: evs)
      = countConnects evs + (match e with | ChanEvent.connect _ => 1 | _ => 0) := by
  cases e <;> simp [countConnects, List.countP_cons]

/-- Counting disconnects, one step at a time. -/
theorem countDisconnects_cons (e : ChanEvent) (evs : List ChanEvent) :
    countDisconnects (e :: evs)
      = countDisconnects evs + (match e with | ChanEvent.disconnect _ => 1 | _ => 0) := by
  cases e <;> simp [countDisconnects, List.countP_cons]

/-- Running a well-formed trace with a duplicate-free initial client set:
the final set size plus the disconnect count equals the initial size plus
the connect count. -/
theorem presence_count (evs : List ChanEvent) :
    ∀ clients : List String, clients.Nodup → wfTrace clients evs = true →
      (presenceRun clients evs).1.length + countDisconnects evs
        = clients.length + countConnects evs := by
  induction evs with
  | nil =>
    intro clients _ _
    simp [presenceRun, countConnects, countDisconnects]
  | cons e rest ih =>
    intro clients hnd hwf
    cases e with
    | connect sid =>
      rw [wfTrace, Bool.and_eq_true, decide_eq_true_eq] at hwf
      have hrec := ih (addClient clients sid) (nodup_addClient sid hnd) hwf.2
      have hlen := length_addClient_of_not_mem hwf.1
      rw [presenceRun_cons, countConnects_cons, countDisconnects_cons]
      simp only [stepPresence] at hrec ⊢
      omega
    | disconnect sid =>
      rw [wfTrace, Bool.and_eq_true, decide_eq_true_eq] at hwf
      have hrec := ih (removeClient clients sid) (nodup_removeClient sid hnd) hwf.2
      have hlen := length_removeClient_of_mem hnd hwf.1
      rw [presenceRun_cons, countConnects_cons, countDisconnects_cons]
      simp only [stepPresence] at hrec ⊢
      omega

/-- Lemma that the `users-count` broadcast after the last event of a non-empty trace
carries the size of the final client set. -/
theorem presenceRun_lastBroadcast (evs : List ChanEvent) :
    ∀ clients : List String, evs ≠ [] →
      (presenceRun clients evs).2.getLast? = some (presenceRun clients evs).1.length := by
  induction evs with
  | nil => intro _ h; exact absurd rfl h
  | cons e rest ih =>
    intro clients _
    rw [presenceRun_cons]
    cases rest with
    | nil => simp [presenceRun]
    | cons e2 rest2 =>
      have htl := ih (stepPresence clients e) (List.cons_ne_nil _ _)
      rw [presenceRun_cons] at htl ⊢
      rw [List.getLast?_cons_cons]
      exact htl

/-! ## The claims -/

/-- Claim C1 is false of the code in cloud mode with a failing backend
write: merging the well-formed candidate replica `[{id:"a"}]` into an
empty authoritative replica leaves the replica empty instead of adopting
the entry demanded by the claim, because each `saveListing` call inside
the merge loop catches the failed Firebase write before its in-memory
cache update (server.js:134-148). -/
theorem sync_merge_write_failure_counterexample :
    (handleSyncListings true false [] ([Listing.mk (some "a") 0].map some)).1 = []
    ∧ (handleSyncListings true false [] ([Listing.mk (some "a") 0].map some)).1
        ≠ [Listing.mk (some "a") 0] := by
  decide

/-- Claim C1 amended (proved): for a server authoritative replica `A` and
a well-formed client candidate replica `C` (entries non-null with truthy
ids, at most one entry per id), when backend writes succeed (or the
server uses local storage), the `sync-listings` handler leaves the
authoritative replica equal to `A` extended by exactly those entries of
`C` whose id does not occur in `A` (they are `unshift`ed, hence appear
reversed in front); `A`'s own entries survive verbatim, so no
authoritative entry is replaced by a candidate with the same id. -/
theorem sync_listings_reconciliation (cloud writeOk : Bool) (A C : List Listing)
    (hok : cloud = false ∨ writeOk = true)
    (htruthy : ∀ l ∈ C, truthyId l.id = true)
    (hnodup : (C.map (·.id)).Nodup) :
    (handleSyncListings cloud writeOk A (C.map some)).1
        = (C.filter (fun c => decide (c.id ∉ A.map (·.id)))).reverse ++ A
    ∧ ∀ x, x ∈ (handleSyncListings cloud writeOk A (C.map some)).1
        ↔ x ∈ A ∨ (x ∈ C ∧ x.id ∉ A.map (·.id)) := by
  have hmain : (handleSyncListings cloud writeOk A (C.map some)).1
      = (C.filter (fun c => decide (c.id ∉ A.map (·.id)))).reverse ++ A := by
    rw [handleSyncListings_fst]
    by_cases hC : C = []
    · subst hC; simp
    · rw [if_neg (fun h => hC (List.map_eq_nil_iff.mp h))]
      rw [candidates_filter _ _ htruthy, foldl_saveListing_eq hok]
      refine foldl_upsert_fresh _ A ?_ ?_
      · intro d hd
        exact of_decide_eq_true (List.mem_filter.mp hd).2
      · exact List.Sublist.nodup (List.Sublist.map _ (List.filter_sublist C)) hnodup
  refine ⟨hmain, ?_⟩
  intro x
  rw [hmain]
  simp only [List.mem_append, List.mem_reverse, List.mem_filter, decide_eq_true_eq]
  tauto

/-- Witness for C1: `A = [{id:"a"}]`, `C = [{id:"a"}', {id:"b"}]`; the
handler adds only the `"b"` entry, in front, leaving `A`'s `"a"` entry
untouched. -/
theorem sync_listings_reconciliation_witness :
    (handleSyncListings false true [Listing.mk (some "a") 0]
        ([Listing.mk (some "a") 1, Listing.mk (some "b") 2].map some)).1
      = ([Listing.mk (some "a") 1, Listing.mk (some "b") 2].filter
          (fun c => decide (c.id ∉ [Listing.mk (some "a") 0].map (·.id)))).reverse
        ++ [Listing.mk (some "a") 0] :=
  (sync_listings_reconciliation false true [Listing.mk (some "a") 0]
    [Listing.mk (some "a") 1, Listing.mk (some "b") 2]
    (Or.inl rfl) (by decide) (by decide)).1

/-- Claim C2 is false of the code: on `connect` the client emits the
`sync-listings` reconciliation request FIRST and drains the offline queue
only afterwards.  With an empty local replica and one queued delete
intent, the claimed order (drain first, reconciliation last) does not
match the emitted sequence. -/
theorem connect_drain_order_counterexample :
    (onConnect [] false ⟨[QueuedUpdate.mk 1 QAction.deleted (QData.lid (some "x"))],
        [QueuedUpdate.mk 1 QAction.deleted (QData.lid (some "x"))]⟩).1
      ≠ [ClientEmit.mutation QAction.deleted (QData.lid (some "x")),
         ClientEmit.syncListings []] := by
  decide

/-- Claim C2 amended (proved): on every transition to connected, the
client first emits the `sync-listings` reconciliation request carrying
its entire local replica, and then drains the Offline Queue, emitting one
mutation event per pending intent in queue order and ending with an empty
queue. -/
theorem connect_sync_then_drain (replica : List Listing) (st : ClientQueueState) :
    (onConnect replica false st).1
        = ClientEmit.syncListings replica :: st.updateQueue.map emitOf
    ∧ (onConnect replica false st).2.updateQueue = [] := by
  have h1 : (onConnect replica false st).1
      = ClientEmit.syncListings replica :: (processUpdateQueue true false st).1 := rfl
  have h2 : (onConnect replica false st).2 = (processUpdateQueue true false st).2 := rfl
  by_cases hq : st.updateQueue = []
  · rw [h1, h2, processUpdateQueue_skip true false st (Or.inr (Or.inl hq))]
    exact ⟨by rw [hq]; rfl, hq⟩
  · rw [h1, h2, processUpdateQueue_drain st hq]
    exact ⟨rfl, rfl⟩

/-- Claim C3 is false of the code in cloud mode: when the Firebase write
throws, the `catch` in `saveListing` skips the in-memory cache update, so
the authoritative replica is NOT updated with the listing (the broadcast
still goes out).  Concretely, adding `{id:"a"}` to an empty replica with
a failing cloud write broadcasts but leaves the replica empty rather than
updated. -/
theorem persistence_failure_counterexample :
    (handleListingAdded true false [] (some (Listing.mk (some "a") 0))).map Prod.fst
        = some []
    ∧ (handleListingAdded true false [] (some (Listing.mk (some "a") 0))).map Prod.fst
        ≠ some [Listing.mk (some "a") 0] := by
  decide

/-- Claim C3 amended (proved): on `listing-added` / `listing-updated` the
`update-listings` broadcast always happens regardless of the persistence
outcome; in local-storage mode a failed file write still leaves the
in-memory replica updated (the write error is swallowed after the
update), while in cloud mode a failed backend write leaves the in-memory
replica unchanged (the cache update is skipped, not rolled back). -/
theorem persistence_failure_semantics (writeOk : Bool) (R : List Listing) (l : Listing)
    (hid : truthyId l.id = true) :
    handleListingAdded false writeOk R (some l)
        = some (upsert R l, UpdateMsg.added (some l))
    ∧ handleListingUpdated false writeOk R (some l)
        = some (upsert R l, UpdateMsg.updated (some l))
    ∧ handleListingAdded true false R (some l)
        = some (R, UpdateMsg.added (some l))
    ∧ handleListingUpdated true false R (some l)
        = some (R, UpdateMsg.updated (some l)) := by
  refine ⟨?_, ?_, ?_, ?_⟩
  · show some ((if truthyId l.id = true then saveListing false writeOk R l else R), _) = _
    rw [if_pos hid, saveListing_eq_upsert (Or.inl rfl)]
  · show some (saveListing false writeOk R l, _) = _
    rw [saveListing_eq_upsert (Or.inl rfl)]
  · show some ((if truthyId l.id = true then saveListing true false R l else R), _) = _
    rw [if_pos hid]
    simp [saveListing]
  · show some (saveListing true false R l, _) = _
    simp [saveListing]

/-- Witness for the amended C3: local mode, failing file write, replica
still gains the listing. -/
theorem persistence_failure_semantics_witness :
    handleListingAdded false false [] (some (Listing.mk (some "a") 1))
      = some (upsert [] (Listing.mk (some "a") 1),
          UpdateMsg.added (some (Listing.mk (some "a") 1))) :=
  (persistence_failure_semantics false [] (Listing.mk (some "a") 1) (by decide)).1

/-- Claim C4 (confirmed): enqueue N intents while disconnected — each is
persisted to durable storage at enqueue time — then crash, restart
(reload the queue from storage) and reconnect: the drain performs exactly
N delivery attempts, one per recorded intent in enqueue order, with no
intent lost and none attempted twice in the pass, and the queue ends
empty. -/
theorem queue_durability (intents : List (Nat × QAction × QData)) :
    (enqueueAll intents).stored = intents.map mkUpdate
    ∧ processUpdateQueue true false (loadUpdateQueue (enqueueAll intents))
        = ((intents.map mkUpdate).map emitOf, ⟨[], []⟩)
    ∧ (processUpdateQueue true false (loadUpdateQueue (enqueueAll intents))).1.length
        = intents.length := by
  have he := enqueueAll_eq intents
  have hmain : processUpdateQueue true false (loadUpdateQueue (enqueueAll intents))
      = ((intents.map mkUpdate).map emitOf, ⟨[], []⟩) := by
    rw [he]
    by_cases hq : intents.map mkUpdate = []
    · rw [processUpdateQueue_skip _ _ _ (Or.inr (Or.inl hq)), hq]
      rfl
    · rw [processUpdateQueue_drain _ hq]
      rfl
  refine ⟨by rw [he], hmain, ?_⟩
  rw [hmain]
  simp

/-- Claim C5 (confirmed): an `update-listings{action:added}` broadcast
whose listing id is already present leaves the client replica unchanged,
and applying the same `added` event twice gives the same replica as
applying it once (first occurrence wins). -/
theorem added_broadcast_idempotent (R : List Listing) (l : Listing)
    (h : l.id ∈ R.map (·.id)) :
    applyUpdate R (UpdateMsg.added (some l)) = some R
    ∧ applyUpdate (applyAdded R l) (UpdateMsg.added (some l)) = some (applyAdded R l) := by
  have hex : ∃ x ∈ R, x.id = l.id := by
    rcases List.mem_map.mp h with ⟨x, hx, hid⟩
    exact ⟨x, hx, hid⟩
  constructor
  · show some (applyAdded R l) = some R
    rw [applyAdded, if_pos hex]
  · show some (applyAdded (applyAdded R l) l) = some (applyAdded R l)
    rw [applyAdded_applyAdded]

/-- Witness for C5: replica already holding id `"a"` absorbs an `added`
broadcast carrying a different object with the same id. -/
theorem added_broadcast_idempotent_witness :
    applyUpdate [Listing.mk (some "a") 0]
        (UpdateMsg.added (some (Listing.mk (some "a") 5)))
      = some [Listing.mk (some "a") 0] :=
  (added_broadcast_idempotent [Listing.mk (some "a") 0] (Listing.mk (some "a") 5)
    (by decide)).1

/-- Claim C6 (confirmed): every operation of the sync engine preserves
"at most one listing per id" — the server's insert-or-replace
(`saveListing`, any backend outcome), the server's delete, the
`sync-listings` merge (any candidate array), and the client's
`update-listings` apply in all three action branches. -/
theorem replica_single_entry_per_id (cloud writeOk : Bool) (R : List Listing)
    (l : Listing) (lid : Option String) (C : List (Option Listing)) (m : UpdateMsg)
    (h : distinctIds R) :
    distinctIds (saveListing cloud writeOk R l)
    ∧ distinctIds (deleteListing cloud writeOk R lid)
    ∧ distinctIds (handleSyncListings cloud writeOk R C).1
    ∧ ∀ R', applyUpdate R m = some R' → distinctIds R' := by
  refine ⟨distinctIds_saveListing cloud writeOk l h,
    distinctIds_deleteListing cloud writeOk lid h, ?_, ?_⟩
  · rw [handleSyncListings_fst]
    split_ifs with hC
    · exact h
    · exact distinctIds_foldl_saveListing cloud writeOk _ R h
  · intro R' hR'
    cases m with
    | added p =>
      cases p with
      | none => simp [applyUpdate] at hR'
      | some l2 =>
        simp only [applyUpdate, Option.some.injEq] at hR'
        rw [← hR']
        exact distinctIds_applyAdded l2 h
    | updated p =>
      cases p with
      | none => simp [applyUpdate] at hR'
      | some l2 =>
        simp only [applyUpdate, Option.some.injEq] at hR'
        rw [← hR']
        exact distinctIds_applyUpdated l2 h
    | deleted lid2 =>
      simp only [applyUpdate, Option.some.injEq] at hR'
      rw [← hR']
      exact distinctIds_removeId lid2 h

/-- Witness for C6: upserting a listing with an already-present id into a
two-entry replica keeps the ids distinct. -/
theorem replica_single_entry_per_id_witness :
    distinctIds (saveListing false true
        [Listing.mk (some "a") 0, Listing.mk (some "b") 1] (Listing.mk (some "a") 7)) :=
  (replica_single_entry_per_id false true
    [Listing.mk (some "a") 0, Listing.mk (some "b") 1] (Listing.mk (some "a") 7)
    none [] (UpdateMsg.deleted none) (by decide)).1

/-- Claim C7 (confirmed): deleting an id that is not present is a no-op,
on the server (`deleteListing`, any backend mode and write outcome) and
on the client (`update-listings{action:deleted}`). -/
theorem delete_absorption (cloud writeOk : Bool) (R : List Listing) (lid : Option String)
    (h : lid ∉ R.map (·.id)) :
    deleteListing cloud writeOk R lid = R
    ∧ applyUpdate R (UpdateMsg.deleted lid) = some R := by
  have hrm : removeId R lid = R := by
    refine List.filter_eq_self.mpr ?_
    intro x hx
    simp only [ne_eq, decide_eq_true_eq]
    intro hxe
    exact h (hxe ▸ List.mem_map.mpr ⟨x, hx, rfl⟩)
  constructor
  · unfold deleteListing
    split_ifs <;> first | exact hrm | rfl
  · show some (removeId R lid) = some R
    rw [hrm]

/-- Witness for C7: deleting the absent id `"b"` leaves a one-entry
replica untouched. -/
theorem delete_absorption_witness :
    deleteListing false true [Listing.mk (some "a") 0] (some "b")
      = [Listing.mk (some "a") 0] :=
  (delete_absorption false true [Listing.mk (some "a") 0] (some "b") (by decide)).1

/-- Claim C8 (confirmed): over any well-formed sequence of
connect/disconnect events starting from server start (empty client set),
the `users-count` value broadcast after the last event equals the number
of currently open channels, which is the number of connects minus the
number of disconnects. -/
theorem presence_accuracy (evs : List ChanEvent)
    (hwf : wfTrace [] evs = true) (hne : evs ≠ []) :
    countDisconnects evs ≤ countConnects evs
    ∧ (presenceRun [] evs).1.length = countConnects evs - countDisconnects evs
    ∧ (presenceRun [] evs).2.getLast?
        = some (countConnects evs - countDisconnects evs) := by
  have hadd := presence_count evs [] List.nodup_nil hwf
  simp only [List.length_nil, Nat.zero_add] at hadd
  have h1 : countDisconnects evs ≤ countConnects evs := by omega
  have h2 : (presenceRun [] evs).1.length = countConnects evs - countDisconnects evs := by
    omega
  refine ⟨h1, h2, ?_⟩
  rw [presenceRun_lastBroadcast evs [] hne, h2]

/-- Witness for C8: after `connect a, connect b, disconnect a` the last
broadcast value is `2 - 1 = 1`. -/
theorem presence_accuracy_witness :
    (presenceRun [] [ChanEvent.connect "a", ChanEvent.connect "b",
        ChanEvent.disconnect "a"]).2.getLast?
      = some (countConnects [ChanEvent.connect "a", ChanEvent.connect "b",
            ChanEvent.disconnect "a"]
          - countDisconnects [ChanEvent.connect "a", ChanEvent.connect "b",
            ChanEvent.disconnect "a"]) :=
  (presence_accuracy [ChanEvent.connect "a", ChanEvent.connect "b",
    ChanEvent.disconnect "a"] (by decide) (by decide)).2.2

/-- Claim C9 is false of the code for a `null` payload: the handler's log
line dereferences `listing.title` and throws before reaching the
broadcast, so nothing is broadcast at all (and nothing is persisted). -/
theorem null_payload_counterexample :
    handleListingAdded false true [] none = none
    ∧ handleListingAdded false true [] none ≠ some ([], UpdateMsg.added none) := by
  decide

/-- Claim C9 amended (proved): a non-null `listing-added` payload lacking
a truthy `id` skips persistence, leaves the authoritative replica
unchanged, and is still broadcast verbatim to all channels; a `null`
payload instead makes the handler throw before persisting or
broadcasting anything. -/
theorem malformed_payload_broadcast (cloud writeOk : Bool) (R : List Listing) (l : Listing)
    (h : truthyId l.id = false) :
    handleListingAdded cloud writeOk R (some l) = some (R, UpdateMsg.added (some l))
    ∧ handleListingAdded cloud writeOk R none = none := by
  constructor
  · show some ((if truthyId l.id = true then saveListing cloud writeOk R l else R), _) = _
    rw [h]
    simp
  · rfl

/-- Witness for the amended C9: an id-less payload is broadcast while the
replica stays empty. -/
theorem malformed_payload_broadcast_witness :
    handleListingAdded false true [] (some (Listing.mk none 3))
      = some ([], UpdateMsg.added (some (Listing.mk none 3))) :=
  (malformed_payload_broadcast false true [] (Listing.mk none 3) (by decide)).1

/-- Recognizer for a `sync-all-listings` emission. -/
def isSyncAllEmit : ServerEmit → Bool
  | ServerEmit.syncAll _ _ => true
  | _ => false

/-- Claim C10 (confirmed): the connection handler — which runs on the
server state alone, before any message from the client is processed —
emits exactly one `sync-all-listings` event, addressed to the newly
connected socket only, carrying the complete authoritative replica (the
other emission is the `users-count` broadcast). -/
theorem connection_initial_sync (clients : List String) (listings : List Listing)
    (sid : String) :
    (onConnection clients listings sid).2.filter isSyncAllEmit
        = [ServerEmit.syncAll (EmitTarget.oneClient sid) listings]
    ∧ (onConnection clients listings sid).2
        = [ServerEmit.usersCount EmitTarget.allClients (addClient clients sid).length,
           ServerEmit.syncAll (EmitTarget.oneClient sid) listings] :=
  ⟨rfl, rfl⟩

end ListingsSync
